import Mathlib

/-!
# Application controller of `internal/app/app.go`

A shallow embedding of `Application.Start`, `Application.ListenForShutdown`,
`Application.End` and `Application.BootStrap`.

The collaborators (`subsystem.Manager`, `metrics.Metricer`, `server.Server`,
the logger) are declared in other packages.  Their methods are taken as
parameters: each one is a transformer of a world state `σ` that stands for
everything the collaborators own.  A Go result `(T, error)` is an
`Except Err T`; a Go slice that may be `nil` is an `Option (List _)`, with
`none` for `nil`; a Go `error` that may be `nil` is an `Option Err`.

Every collaborator call the code makes is appended, in program order, to a
list of `Call`s, so that the order and the number of the calls can be stated.
`logging.WithContext(a.ctx)` and `metrics.WithContext(a.ctx)` look a logger
and a metricer up in the context; the calls recorded are the ones made on
them, `Info` and `RecordUp`, which carry that context.

Assumptions of the model: every collaborator call returns (none panics or
blocks for ever), `SessionConfig()` is a pure projection of the request, and
the logger writes its record without touching the world of the other
collaborators.
-/

namespace App

/-- The pair `core.HeuristicID` built by `BootStrap`. -/
structure HeuristicID (SU PU : Type) where
  SUUID : SU
  PUUID : PU
deriving DecidableEq, Repr

/-- The type `os.Signal`, as the signal number of `syscall.Signal`. -/
abbrev Signal := Nat

/-- The constant `syscall.SIGINT`. -/
def SIGINT : Signal := 2

/-- The constant `syscall.SIGTERM`. -/
def SIGTERM : Signal := 15

/-- One observable call made by the controller, with its arguments. -/
inductive Call (Ctx Req PCfg SCfg DCfg : Type) where
  | metricsStart
  | StartEventRoutines (ctx : Ctx)
  | serverStart
  | RecordUp (ctx : Ctx)
  | BuildPipelineCfg (session : Req)
  | SessionConfig (session : Req)
  | BuildDeployCfg (pConfig : PCfg) (sConfig : SCfg)
  | RunSession (deployCfg : DCfg)
  | Info (ctx : Ctx) (msg : String) (key : String) (value : String)
  | stop
deriving DecidableEq, Repr

/-- The methods of `metrics.Metricer` that the controller calls. -/
structure Metricer (σ : Type) where
  Start : σ → σ
  RecordUp : σ → σ

/-- The method of `server.Server` that the controller calls. -/
structure Server (σ : Type) where
  Start : σ → σ

/-- The methods of `subsystem.Manager` that the controller calls. -/
structure Manager (σ Ctx Req PCfg SCfg DCfg SU Err : Type) where
  StartEventRoutines : Ctx → σ → σ
  BuildPipelineCfg : Req → σ → Except Err PCfg × σ
  BuildDeployCfg : PCfg → SCfg → σ → Except Err DCfg × σ
  RunSession : DCfg → σ → Except Err SU × σ

/-- The struct `Application` (its unused field `cfg` is left out), followed by
the functions of other packages that its methods use: `metrics.WithContext`,
`SessionRequestParams.SessionConfig`, the field `PUUID` of a deployment
configuration, `logging.SUUIDKey`, the `String` method of a session UUID and
the `String` method of `os.Signal`. -/
structure Application (σ Ctx Req PCfg SCfg DCfg SU PU Err : Type) where
  ctx : Ctx
  metrics : Metricer σ
  Subsystems : Manager σ Ctx Req PCfg SCfg DCfg SU Err
  server : Server σ
  metricsWithContext : Ctx → Metricer σ
  SessionConfig : Req → SCfg
  PUUID : DCfg → PU
  SUUIDKey : String
  SUUIDString : SU → String
  signalString : Signal → String

section Defs

variable {σ Ctx Req PCfg SCfg DCfg SU PU Err : Type}

/-- What a call of `Start` leaves behind: the returned `error`, the world and
the calls made. -/
structure StartRun (σ Ctx Req PCfg SCfg DCfg Err : Type) where
  err : Option Err
  world : σ
  calls : List (Call Ctx Req PCfg SCfg DCfg)

/-- The method `Application.Start`. -/
def Start (a : Application σ Ctx Req PCfg SCfg DCfg SU PU Err) (w : σ) :
    StartRun σ Ctx Req PCfg SCfg DCfg Err :=
  -- Start metrics server
  let w1 := a.metrics.Start w
  -- Spawn subsystem event loop routines
  let w2 := a.Subsystems.StartEventRoutines a.ctx w1
  -- Start the API server
  let w3 := a.server.Start w2
  let w4 := (a.metricsWithContext a.ctx).RecordUp w3
  { err := none
    world := w4
    calls := [Call.metricsStart, Call.StartEventRoutines a.ctx, Call.serverStart,
      Call.RecordUp a.ctx] }

/-- What a call of `BootStrap` leaves behind: the two returned values, the
world and the calls made. -/
structure BootRun (σ Ctx Req PCfg SCfg DCfg SU PU Err : Type) where
  ids : Option (List (HeuristicID SU PU))
  err : Option Err
  world : σ
  calls : List (Call Ctx Req PCfg SCfg DCfg)

/-- The `for _, session := range sessions` loop of `BootStrap`; `ids` is the
slice built so far, `w` the world and `tr` the calls made so far. -/
def BootStrap.loop (a : Application σ Ctx Req PCfg SCfg DCfg SU PU Err) :
    List Req → List (HeuristicID SU PU) → σ → List (Call Ctx Req PCfg SCfg DCfg) →
    BootRun σ Ctx Req PCfg SCfg DCfg SU PU Err
  | [], ids, w, tr => { ids := some ids, err := none, world := w, calls := tr }
  | session :: rest, ids, w, tr =>
    match a.Subsystems.BuildPipelineCfg session w with
    | (Except.error err, w1) =>
      { ids := none, err := some err, world := w1
        calls := tr ++ [Call.BuildPipelineCfg session] }
    | (Except.ok pConfig, w1) =>
      let sConfig := a.SessionConfig session
      match a.Subsystems.BuildDeployCfg pConfig sConfig w1 with
      | (Except.error err, w2) =>
        { ids := none, err := some err, world := w2
          calls := tr ++ [Call.BuildPipelineCfg session, Call.SessionConfig session,
            Call.BuildDeployCfg pConfig sConfig] }
      | (Except.ok deployCfg, w2) =>
        match a.Subsystems.RunSession deployCfg w2 with
        | (Except.error err, w3) =>
          { ids := none, err := some err, world := w3
            calls := tr ++ [Call.BuildPipelineCfg session, Call.SessionConfig session,
              Call.BuildDeployCfg pConfig sConfig, Call.RunSession deployCfg] }
        | (Except.ok sUUID, w3) =>
          BootStrap.loop a rest
            (ids ++ [{ SUUID := sUUID, PUUID := a.PUUID deployCfg }]) w3
            (tr ++ [Call.BuildPipelineCfg session, Call.SessionConfig session,
              Call.BuildDeployCfg pConfig sConfig, Call.RunSession deployCfg,
              Call.Info a.ctx "heuristic session started" a.SUUIDKey (a.SUUIDString sUUID)])

/-- The method `Application.BootStrap`: `ids` starts as the empty slice
`make([]*core.HeuristicID, 0, len(sessions))`. -/
def BootStrap (a : Application σ Ctx Req PCfg SCfg DCfg SU PU Err) (sessions : List Req)
    (w : σ) : BootRun σ Ctx Req PCfg SCfg DCfg SU PU Err :=
  BootStrap.loop a sessions [] w []

/-- Where the goroutine running `ListenForShutdown` stands: about to call
`a.End()`, blocked on the receive `<-sigs`, about to log the received signal
`done`, about to call `stop()`, or returned. -/
inductive PC where
  | callEnd
  | recv
  | logging (done : Signal)
  | callStop
  | returned
deriving DecidableEq, Repr

/-- The state of a run of `ListenForShutdown`: the program point, the signals
registered with `signal.Notify`, the buffer of the channel `sigs` (capacity 1)
and the calls made so far. -/
structure ListenState (Ctx Req PCfg SCfg DCfg : Type) where
  pc : PC
  notify : List Signal
  sigs : List Signal
  calls : List (Call Ctx Req PCfg SCfg DCfg)

/-- What happens next in a run of `ListenForShutdown`: the operating system
delivers a signal to the process, or the goroutine runs its next statement. -/
inductive Action where
  | deliver (sig : Signal)
  | step
deriving DecidableEq, Repr

/-- The state in which `ListenForShutdown` is entered. -/
def ListenForShutdown.init : ListenState Ctx Req PCfg SCfg DCfg :=
  { pc := PC.callEnd, notify := [], sigs := [], calls := [] }

/-- The method `Application.End`: makes the channel `sigs` of capacity 1 and
registers it for `syscall.SIGINT` and `syscall.SIGTERM`. -/
def End (s : ListenState Ctx Req PCfg SCfg DCfg) : ListenState Ctx Req PCfg SCfg DCfg :=
  { s with sigs := [], notify := [SIGINT, SIGTERM] }

/-- Delivery of a signal: `signal.Notify` relays a registered signal to the
channel without blocking, so the signal is dropped when the buffer is full.
A signal that is not registered, or that arrives before `End` has registered
anything, is not relayed to the channel; what the process does with it
otherwise is outside the model. -/
def ListenForShutdown.deliver (sig : Signal) (s : ListenState Ctx Req PCfg SCfg DCfg) :
    ListenState Ctx Req PCfg SCfg DCfg :=
  if sig ∈ s.notify ∧ s.sigs.length < 1 then { s with sigs := s.sigs ++ [sig] } else s

/-- One statement of `ListenForShutdown`; the receive `<-a.End()` does nothing
while the channel is empty. -/
def ListenForShutdown.step (a : Application σ Ctx Req PCfg SCfg DCfg SU PU Err)
    (s : ListenState Ctx Req PCfg SCfg DCfg) : ListenState Ctx Req PCfg SCfg DCfg :=
  match s.pc with
  | PC.callEnd => { End s with pc := PC.recv }
  | PC.recv =>
    match s.sigs with
    | [] => s
    | done :: rest => { s with pc := PC.logging done, sigs := rest }
  | PC.logging done =>
    { s with
      pc := PC.callStop
      calls := s.calls ++
        [Call.Info a.ctx "Received shutdown OS signal" "signal" (a.signalString done)] }
  | PC.callStop => { s with pc := PC.returned, calls := s.calls ++ [Call.stop] }
  | PC.returned => s

/-- One action of a run of `ListenForShutdown`. -/
def ListenForShutdown.exec (a : Application σ Ctx Req PCfg SCfg DCfg SU PU Err)
    (s : ListenState Ctx Req PCfg SCfg DCfg) : Action → ListenState Ctx Req PCfg SCfg DCfg
  | Action.deliver sig => ListenForShutdown.deliver sig s
  | Action.step => ListenForShutdown.step a s

/-- The method `Application.ListenForShutdown` run under the schedule `acts`. -/
def ListenForShutdown (a : Application σ Ctx Req PCfg SCfg DCfg SU PU Err)
    (acts : List Action) : ListenState Ctx Req PCfg SCfg DCfg :=
  acts.foldl (ListenForShutdown.exec a) ListenForShutdown.init

/-! ## Words of the specification -/

/-- What the three delegated stages produced for one request. -/
structure Staged (Req PCfg DCfg SU : Type) where
  session : Req
  pConfig : PCfg
  deployCfg : DCfg
  sUUID : SU

/-- All the stages succeed for the request `session` taken in world `w`:
`BuildPipelineCfg` returns `pConfig`, `BuildDeployCfg` applied to it and to the
request's `SessionConfig()` returns `deployCfg`, `RunSession` applied to that
returns `sUUID`, and the world is then `w3`. -/
def StagesOk (a : Application σ Ctx Req PCfg SCfg DCfg SU PU Err) (w : σ)
    (o : Staged Req PCfg DCfg SU) (w3 : σ) : Prop :=
  ∃ w1 w2,
    a.Subsystems.BuildPipelineCfg o.session w = (Except.ok o.pConfig, w1) ∧
    a.Subsystems.BuildDeployCfg o.pConfig (a.SessionConfig o.session) w1 =
      (Except.ok o.deployCfg, w2) ∧
    a.Subsystems.RunSession o.deployCfg w2 = (Except.ok o.sUUID, w3)

/-- All the stages succeed for every request of a batch processed in input
order from world `w`; `out` lists what they produced and `w2` is the world
after the last request. -/
inductive AllOk (a : Application σ Ctx Req PCfg SCfg DCfg SU PU Err) :
    σ → List (Staged Req PCfg DCfg SU) → σ → Prop where
  | nil (w : σ) : AllOk a w [] w
  | cons {w w1 w2 : σ} {o : Staged Req PCfg DCfg SU} {out : List (Staged Req PCfg DCfg SU)} :
      StagesOk a w o w1 → AllOk a w1 out w2 → AllOk a w (o :: out) w2

/-- The request `session`, taken in world `w`, fails: its first failing stage
returns the error `e` and leaves the world `w2`; `cs` lists the calls made for
the request, the failing call last. -/
inductive FailsAt (a : Application σ Ctx Req PCfg SCfg DCfg SU PU Err) (w : σ) (session : Req) :
    List (Call Ctx Req PCfg SCfg DCfg) → Err → σ → Prop where
  | pipeline {e : Err} {w1 : σ} :
      a.Subsystems.BuildPipelineCfg session w = (Except.error e, w1) →
      FailsAt a w session [Call.BuildPipelineCfg session] e w1
  | deploy {e : Err} {pConfig : PCfg} {w1 w2 : σ} :
      a.Subsystems.BuildPipelineCfg session w = (Except.ok pConfig, w1) →
      a.Subsystems.BuildDeployCfg pConfig (a.SessionConfig session) w1 = (Except.error e, w2) →
      FailsAt a w session
        [Call.BuildPipelineCfg session, Call.SessionConfig session,
          Call.BuildDeployCfg pConfig (a.SessionConfig session)] e w2
  | run {e : Err} {pConfig : PCfg} {deployCfg : DCfg} {w1 w2 w3 : σ} :
      a.Subsystems.BuildPipelineCfg session w = (Except.ok pConfig, w1) →
      a.Subsystems.BuildDeployCfg pConfig (a.SessionConfig session) w1 =
        (Except.ok deployCfg, w2) →
      a.Subsystems.RunSession deployCfg w2 = (Except.error e, w3) →
      FailsAt a w session
        [Call.BuildPipelineCfg session, Call.SessionConfig session,
          Call.BuildDeployCfg pConfig (a.SessionConfig session), Call.RunSession deployCfg] e w3

/-- The identifier pair that `BootStrap` builds from the results of the stages. -/
def Staged.id (a : Application σ Ctx Req PCfg SCfg DCfg SU PU Err)
    (o : Staged Req PCfg DCfg SU) : HeuristicID SU PU :=
  { SUUID := o.sUUID, PUUID := a.PUUID o.deployCfg }

/-- The calls that one iteration of the loop of `BootStrap` makes for a
request whose stages all succeed. -/
def Staged.calls (a : Application σ Ctx Req PCfg SCfg DCfg SU PU Err)
    (o : Staged Req PCfg DCfg SU) : List (Call Ctx Req PCfg SCfg DCfg) :=
  [Call.BuildPipelineCfg o.session, Call.SessionConfig o.session,
    Call.BuildDeployCfg o.pConfig (a.SessionConfig o.session), Call.RunSession o.deployCfg,
    Call.Info a.ctx "heuristic session started" a.SUUIDKey (a.SUUIDString o.sUUID)]

/-- Whether a call is a call of `RunSession`. -/
def Call.isRunSession : Call Ctx Req PCfg SCfg DCfg → Bool
  | Call.RunSession _ => true
  | _ => false

/-- Whether a call is one of the delegated calls of `BootStrap`:
`BuildPipelineCfg`, `SessionConfig`, `BuildDeployCfg` or `RunSession`. -/
def Call.isStage : Call Ctx Req PCfg SCfg DCfg → Bool
  | Call.BuildPipelineCfg _ => true
  | Call.SessionConfig _ => true
  | Call.BuildDeployCfg _ _ => true
  | Call.RunSession _ => true
  | _ => false

/-- Whether a call is the liveness heartbeat `RecordUp`. -/
def Call.isRecordUp : Call Ctx Req PCfg SCfg DCfg → Bool
  | Call.RecordUp _ => true
  | _ => false

/-- Whether a call is a call of the shutdown callback `stop`. -/
def Call.isStop : Call Ctx Req PCfg SCfg DCfg → Bool
  | Call.stop => true
  | _ => false

/-- A termination signal: one of the two that `End` registers. -/
def isTermination (sig : Signal) : Prop := sig = SIGINT ∨ sig = SIGTERM

/-- The run `r` seen from a caller that had already built the identifiers
`ids` and made the calls `tr`. -/
def BootRun.after (ids : List (HeuristicID SU PU)) (tr : List (Call Ctx Req PCfg SCfg DCfg))
    (r : BootRun σ Ctx Req PCfg SCfg DCfg SU PU Err) :
    BootRun σ Ctx Req PCfg SCfg DCfg SU PU Err :=
  { ids := r.ids.map (fun l => ids ++ l), err := r.err, world := r.world, calls := tr ++ r.calls }

/-- The reading of "the returned error identifies the index of the failing
request": some function of the returned error gives, for every batch run from
world `w` whose request at position `k` is the first to fail, the position `k`. -/
def ErrorIdentifiesIndex (a : Application σ Ctx Req PCfg SCfg DCfg SU PU Err) (w : σ) : Prop :=
  ∃ indexOf : Err → Nat,
    ∀ (out : List (Staged Req PCfg DCfg SU)) (w1 w2 : σ) (session : Req)
      (cs : List (Call Ctx Req PCfg SCfg DCfg)) (e e2 : Err) (rest : List Req),
      AllOk a w out w1 → FailsAt a w1 session cs e w2 →
      (BootStrap a (out.map Staged.session ++ session :: rest) w).err = some e2 →
      indexOf e2 = out.length

/-- The reading of "if a start-up step fails, `Start` aborts with an error and
the heartbeat is never recorded", for a predicate `failed` that tells in which
worlds a start-up step has failed: if the world left by the metrics emitter's
start, by the start of the event loops or by the server's start is a failed
one, `Start` returns an error and has made no call of `RecordUp`. -/
def StartAbortsOnFailure (a : Application σ Ctx Req PCfg SCfg DCfg SU PU Err)
    (failed : σ → Prop) (w : σ) : Prop :=
  (failed (a.metrics.Start w) ∨
    failed (a.Subsystems.StartEventRoutines a.ctx (a.metrics.Start w)) ∨
    failed (a.server.Start (a.Subsystems.StartEventRoutines a.ctx (a.metrics.Start w)))) →
  (Start a w).err ≠ none ∧ (Start a w).calls.filter Call.isRecordUp = []

/-- The record that `ListenForShutdown` logs for the received signal `done`. -/
def shutdownRecord (a : Application σ Ctx Req PCfg SCfg DCfg SU PU Err) (done : Signal) :
    Call Ctx Req PCfg SCfg DCfg :=
  Call.Info a.ctx "Received shutdown OS signal" "signal" (a.signalString done)

/-- What holds of every state of a run of `ListenForShutdown`, `D` telling
which signals have been delivered so far: only termination signals are
registered and buffered, and the calls made follow the program point. -/
def ListenInv (a : Application σ Ctx Req PCfg SCfg DCfg SU PU Err) (D : Signal → Prop)
    (s : ListenState Ctx Req PCfg SCfg DCfg) : Prop :=
  (∀ x ∈ s.notify, isTermination x) ∧ (∀ x ∈ s.sigs, isTermination x ∧ D x) ∧
  match s.pc with
  | PC.callEnd => s.calls = []
  | PC.recv => s.calls = []
  | PC.logging done => s.calls = [] ∧ isTermination done ∧ D done
  | PC.callStop => ∃ done, isTermination done ∧ D done ∧ s.calls = [shutdownRecord a done]
  | PC.returned =>
    ∃ done, isTermination done ∧ D done ∧ s.calls = [shutdownRecord a done, Call.stop]

end Defs

/-! ## A concrete application -/

/-- The world of the concrete application: the number of sessions started,
whether the port of the metrics emitter is free, whether the emitter, the
event loops and the server are up, and the number of heartbeats recorded. -/
structure ExWorld where
  sessions : Nat
  portFree : Bool
  metricsUp : Bool
  loops : Bool
  serving : Bool
  heartbeats : Nat
deriving DecidableEq, Repr

/-- The metrics emitter of the concrete application: it comes up only when its
port is free. -/
def exampleMetrics : Metricer ExWorld :=
  { Start := fun w => { w with metricsUp := w.portFree }
    RecordUp := fun w => { w with heartbeats := w.heartbeats + 1 } }

/-- A concrete application over natural numbers.  Request `0` fails in
`BuildPipelineCfg` with error `1`, request `2` fails in `BuildDeployCfg` with
error `2`, request `3` fails in `RunSession` with error `3`, and every other
request succeeds, its session UUID being `100` plus the number of sessions
started before. -/
def exampleApp : Application ExWorld Nat Nat Nat Nat Nat Nat Nat Nat :=
  { ctx := 7
    metrics := exampleMetrics
    Subsystems :=
      { StartEventRoutines := fun _ w => { w with loops := true }
        BuildPipelineCfg := fun r w => if r = 0 then (Except.error 1, w) else (Except.ok (10 * r), w)
        BuildDeployCfg := fun p sc w =>
          if p = 20 then (Except.error 2, w) else (Except.ok (p + sc), w)
        RunSession := fun d w =>
          if d = 34 then (Except.error 3, w)
          else (Except.ok (100 + w.sessions), { w with sessions := w.sessions + 1 }) }
    server := { Start := fun w => { w with serving := true } }
    metricsWithContext := fun _ => exampleMetrics
    SessionConfig := fun r => r + 1
    PUUID := fun d => 1000 + d
    SUUIDKey := "suuid"
    SUUIDString := fun u => if u = 100 then "session-100" else "session"
    signalString := fun sig =>
      if sig = 2 then "interrupt" else if sig = 15 then "terminated" else "signal" }

/-- A world of the concrete application in which nothing has been started and
the port of the metrics emitter is taken. -/
def exampleWorld : ExWorld :=
  { sessions := 0, portFree := false, metricsUp := false, loops := false, serving := false,
    heartbeats := 0 }

/-- The world `exampleWorld` after `n` sessions have been started. -/
def exampleWorldAfter (n : Nat) : ExWorld := { exampleWorld with sessions := n }

/-- What the stages produce for request `1` when no session has been started. -/
def staged1 : Staged Nat Nat Nat Nat :=
  { session := 1, pConfig := 10, deployCfg := 12, sUUID := 100 }

/-- What the stages produce for request `5` when one session has been started. -/
def staged5 : Staged Nat Nat Nat Nat :=
  { session := 5, pConfig := 50, deployCfg := 56, sUUID := 101 }


section Lemmas

variable {σ Ctx Req PCfg SCfg DCfg SU PU Err : Type}

/-- Seeing a run after two callers in turn is seeing it after both at once. -/
theorem BootRun.after_after (ids ids2 : List (HeuristicID SU PU))
    (tr tr2 : List (Call Ctx Req PCfg SCfg DCfg))
    (r : BootRun σ Ctx Req PCfg SCfg DCfg SU PU Err) :
    BootRun.after ids tr (BootRun.after ids2 tr2 r) = BootRun.after (ids ++ ids2) (tr ++ tr2) r := by
  cases r with
  | mk i e w c => cases i <;> simp [BootRun.after]

/-- A caller that has done nothing sees the run as it is. -/
theorem BootRun.after_nil (r : BootRun σ Ctx Req PCfg SCfg DCfg SU PU Err) :
    BootRun.after [] [] r = r := by
  cases r with
  | mk i e w c => cases i <;> simp [BootRun.after]

/-- The loop started with accumulators is the loop started empty, seen after
the accumulators. -/
theorem BootStrap.loop_acc (a : Application σ Ctx Req PCfg SCfg DCfg SU PU Err)
    (sessions : List Req) :
    ∀ (ids : List (HeuristicID SU PU)) (w : σ) (tr : List (Call Ctx Req PCfg SCfg DCfg)),
      BootStrap.loop a sessions ids w tr = BootRun.after ids tr (BootStrap.loop a sessions [] w []) := by
  induction sessions with
  | nil => intro ids w tr; simp [BootStrap.loop, BootRun.after]
  | cons session rest ih =>
    intro ids w tr
    simp only [BootStrap.loop]
    rcases h1 : a.Subsystems.BuildPipelineCfg session w with ⟨r1, w1⟩
    cases r1 with
    | error e => simp [BootRun.after]
    | ok pConfig =>
      simp only []
      rcases h2 : a.Subsystems.BuildDeployCfg pConfig (a.SessionConfig session) w1 with ⟨r2, w2⟩
      cases r2 with
      | error e => simp [BootRun.after]
      | ok deployCfg =>
        simp only []
        rcases h3 : a.Subsystems.RunSession deployCfg w2 with ⟨r3, w3⟩
        cases r3 with
        | error e => simp [BootRun.after]
        | ok sUUID =>
          simp only []
          rw [ih (ids ++ _), ih ([] ++ _) w3 ([] ++ _), BootRun.after_after]
          simp

/-- One iteration of the loop for a request whose stages all succeed. -/
theorem BootStrap_cons_ok (a : Application σ Ctx Req PCfg SCfg DCfg SU PU Err) {w w1 : σ}
    {o : Staged Req PCfg DCfg SU} (h : StagesOk a w o w1) (rest : List Req) :
    BootStrap a (o.session :: rest) w =
      BootRun.after [o.id a] (o.calls a) (BootStrap a rest w1) := by
  obtain ⟨v1, v2, h1, h2, h3⟩ := h
  simp only [BootStrap, BootStrap.loop, h1, h2, h3]
  rw [BootStrap.loop_acc]
  simp [Staged.id, Staged.calls]

/-- One iteration of the loop for a request that fails. -/
theorem BootStrap_cons_fail (a : Application σ Ctx Req PCfg SCfg DCfg SU PU Err) {w w2 : σ}
    {session : Req} {cs : List (Call Ctx Req PCfg SCfg DCfg)} {e : Err}
    (h : FailsAt a w session cs e w2) (rest : List Req) :
    BootStrap a (session :: rest) w = { ids := none, err := some e, world := w2, calls := cs } := by
  cases h with
  | pipeline h1 => simp [BootStrap, BootStrap.loop, h1]
  | deploy h1 h2 => simp [BootStrap, BootStrap.loop, h1, h2]
  | run h1 h2 h3 => simp [BootStrap, BootStrap.loop, h1, h2, h3]

/-- A run over a batch whose first requests all succeed is the run over the
remaining requests, seen after the identifiers and the calls of the first ones. -/
theorem BootStrap_allOk_append (a : Application σ Ctx Req PCfg SCfg DCfg SU PU Err) {w w1 : σ}
    {out : List (Staged Req PCfg DCfg SU)} (h : AllOk a w out w1) (rest : List Req) :
    BootStrap a (out.map Staged.session ++ rest) w =
      BootRun.after (out.map (Staged.id a)) (out.flatMap (Staged.calls a)) (BootStrap a rest w1) := by
  induction h with
  | nil w => simp [BootRun.after_nil]
  | cons hok _ ih =>
    simp only [List.map_cons, List.cons_append, List.flatMap_cons]
    rw [BootStrap_cons_ok a hok, ih, BootRun.after_after]
    simp

/-- The run over the empty batch. -/
theorem BootStrap_nil (a : Application σ Ctx Req PCfg SCfg DCfg SU PU Err) (w : σ) :
    BootStrap a [] w = { ids := some [], err := none, world := w, calls := [] } := rfl

/-- The run over a batch whose first requests succeed and whose next request
fails: nothing depends on the requests after the failing one. -/
theorem BootStrap_fail_eq (a : Application σ Ctx Req PCfg SCfg DCfg SU PU Err) {w w1 w2 : σ}
    {out : List (Staged Req PCfg DCfg SU)} {session : Req}
    {cs : List (Call Ctx Req PCfg SCfg DCfg)} {e : Err}
    (hok : AllOk a w out w1) (hfail : FailsAt a w1 session cs e w2) (rest : List Req) :
    BootStrap a (out.map Staged.session ++ session :: rest) w =
      { ids := none, err := some e, world := w2, calls := out.flatMap (Staged.calls a) ++ cs } := by
  rw [BootStrap_allOk_append a hok, BootStrap_cons_fail a hfail]
  simp [BootRun.after]

/-- The run over a batch whose requests all succeed. -/
theorem BootStrap_ok_eq (a : Application σ Ctx Req PCfg SCfg DCfg SU PU Err) {w w1 : σ}
    {out : List (Staged Req PCfg DCfg SU)} (hok : AllOk a w out w1) :
    BootStrap a (out.map Staged.session) w =
      { ids := some (out.map (Staged.id a)), err := none, world := w1
        calls := out.flatMap (Staged.calls a) } := by
  have h := BootStrap_allOk_append a hok []
  rw [List.append_nil, BootStrap_nil] at h
  rw [h]
  simp [BootRun.after]

/-- Every request either succeeds at every stage or fails at its first failing
stage. -/
theorem stages_total (a : Application σ Ctx Req PCfg SCfg DCfg SU PU Err) (w : σ) (session : Req) :
    (∃ o w1, o.session = session ∧ StagesOk a w o w1) ∨
      (∃ cs e w2, FailsAt a w session cs e w2) := by
  rcases h1 : a.Subsystems.BuildPipelineCfg session w with ⟨r1, w1⟩
  cases r1 with
  | error e => exact Or.inr ⟨_, e, w1, FailsAt.pipeline h1⟩
  | ok pConfig =>
    rcases h2 : a.Subsystems.BuildDeployCfg pConfig (a.SessionConfig session) w1 with ⟨r2, w2⟩
    cases r2 with
    | error e => exact Or.inr ⟨_, e, w2, FailsAt.deploy h1 h2⟩
    | ok deployCfg =>
      rcases h3 : a.Subsystems.RunSession deployCfg w2 with ⟨r3, w3⟩
      cases r3 with
      | error e => exact Or.inr ⟨_, e, w3, FailsAt.run h1 h2 h3⟩
      | ok sUUID =>
        exact Or.inl ⟨⟨session, pConfig, deployCfg, sUUID⟩, w3, rfl, w1, w2, h1, h2, h3⟩

/-- Every batch either succeeds throughout or splits into requests that
succeed, a request that fails and the requests after it. -/
theorem batch_total (a : Application σ Ctx Req PCfg SCfg DCfg SU PU Err) (sessions : List Req) :
    ∀ w : σ,
      (∃ out w1, out.map Staged.session = sessions ∧ AllOk a w out w1) ∨
      (∃ out w1 session cs e w2 rest,
        sessions = out.map Staged.session ++ session :: rest ∧
        AllOk a w out w1 ∧ FailsAt a w1 session cs e w2) := by
  induction sessions with
  | nil => intro w; exact Or.inl ⟨[], w, rfl, AllOk.nil w⟩
  | cons session rest ih =>
    intro w
    rcases stages_total a w session with ⟨o, w1, ho, hok⟩ | ⟨cs, e, w2, hf⟩
    · rcases ih w1 with ⟨out, w2, hout, hall⟩ | ⟨out, w2, s2, cs, e, w3, rest2, hsplit, hall, hf⟩
      · exact Or.inl ⟨o :: out, w2, by simp [ho, hout], AllOk.cons hok hall⟩
      · exact Or.inr ⟨o :: out, w2, s2, cs, e, w3, rest2, by simp [ho, hsplit],
          AllOk.cons hok hall, hf⟩
    · exact Or.inr ⟨[], w, session, cs, e, w2, rest, by simp, AllOk.nil w, hf⟩

/-- In a batch whose requests all succeed, the request at position `i` is
taken in the world left by the first `i` requests. -/
theorem AllOk.at_index (a : Application σ Ctx Req PCfg SCfg DCfg SU PU Err) {w w1 : σ}
    {out : List (Staged Req PCfg DCfg SU)} (h : AllOk a w out w1) :
    ∀ (i : Nat) (o : Staged Req PCfg DCfg SU), out[i]? = some o →
      ∃ wi wj, AllOk a w (out.take i) wi ∧ StagesOk a wi o wj := by
  induction h with
  | nil w => intro i o hi; simp at hi
  | @cons w w1 w2 o1 out hok _ ih =>
    intro i o hi
    cases i with
    | zero =>
      simp at hi
      subst hi
      exact ⟨w, w1, AllOk.nil w, hok⟩
    | succ j =>
      simp at hi
      obtain ⟨wi, wj, htake, hst⟩ := ih j o hi
      exact ⟨wi, wj, by simpa using AllOk.cons hok htake, hst⟩

/-- In the concrete application request `1` succeeds when no session has been
started. -/
theorem example_allOk_1 : AllOk exampleApp exampleWorld [staged1] (exampleWorldAfter 1) :=
  AllOk.cons ⟨exampleWorld, exampleWorld, rfl, rfl, rfl⟩ (AllOk.nil _)

/-- In the concrete application requests `1` and `5` succeed in this order. -/
theorem example_allOk_1_5 :
    AllOk exampleApp exampleWorld [staged1, staged5] (exampleWorldAfter 2) :=
  AllOk.cons ⟨exampleWorld, exampleWorld, rfl, rfl, rfl⟩
    (AllOk.cons ⟨exampleWorldAfter 1, exampleWorldAfter 1, rfl, rfl, rfl⟩ (AllOk.nil _))

/-- In the concrete application request `0` fails in `BuildPipelineCfg`. -/
theorem example_fail_0 (w : ExWorld) :
    FailsAt exampleApp w 0 [Call.BuildPipelineCfg 0] 1 w :=
  FailsAt.pipeline rfl

/-- In the concrete application request `2` fails in `BuildDeployCfg`. -/
theorem example_fail_2 (w : ExWorld) :
    FailsAt exampleApp w 2
      [Call.BuildPipelineCfg 2, Call.SessionConfig 2, Call.BuildDeployCfg 20 3] 2 w :=
  FailsAt.deploy
    (show exampleApp.Subsystems.BuildPipelineCfg 2 w = (Except.ok 20, w) from rfl)
    (show exampleApp.Subsystems.BuildDeployCfg 20 (exampleApp.SessionConfig 2) w =
      (Except.error 2, w) from rfl)

/-- In the concrete application request `3` fails in `RunSession`. -/
theorem example_fail_3 (w : ExWorld) :
    FailsAt exampleApp w 3
      [Call.BuildPipelineCfg 3, Call.SessionConfig 3, Call.BuildDeployCfg 30 4,
        Call.RunSession 34] 3 w :=
  FailsAt.run
    (show exampleApp.Subsystems.BuildPipelineCfg 3 w = (Except.ok 30, w) from rfl)
    (show exampleApp.Subsystems.BuildDeployCfg 30 (exampleApp.SessionConfig 3) w =
      (Except.ok 34, w) from rfl)
    (show exampleApp.Subsystems.RunSession 34 w = (Except.error 3, w) from rfl)

end Lemmas

/-! ## The claims about `BootStrap` -/

section BootStrapClaims

variable {σ Ctx Req PCfg SCfg DCfg SU PU Err : Type}

/-- C1: for a batch `sessions` in which every delegated stage succeeds for
every request (`out` lists what the stages produced), `BootStrap` returns no
error and exactly one identifier per request; the identifier at position `i`
pairs the session UUID that `RunSession` returned for the deployment
configuration built by `BuildDeployCfg` from the result of `BuildPipelineCfg`
on request `i` and that request's `SessionConfig()` (the stages being run in
the world `wi` left by the first `i` requests) with the `PUUID` carried by
that same deployment configuration. -/
theorem BootStrap_success (a : Application σ Ctx Req PCfg SCfg DCfg SU PU Err) (w w1 : σ)
    (sessions : List Req) (out : List (Staged Req PCfg DCfg SU))
    (hs : out.map Staged.session = sessions) (hok : AllOk a w out w1) :
    (BootStrap a sessions w).err = none ∧
    ∃ ids, (BootStrap a sessions w).ids = some ids ∧ ids.length = sessions.length ∧
      ∀ i, i < sessions.length →
        ∃ o wi wj, (BootStrap a (sessions.take i) w).world = wi ∧
          sessions[i]? = some o.session ∧ StagesOk a wi o wj ∧
          ids[i]? = some { SUUID := o.sUUID, PUUID := a.PUUID o.deployCfg } := by
  subst hs
  rw [BootStrap_ok_eq a hok]
  refine ⟨rfl, out.map (Staged.id a), rfl, by simp, ?_⟩
  intro i hi
  have hi2 : i < out.length := by simpa using hi
  obtain ⟨wi, wj, htake, hst⟩ := AllOk.at_index a hok i out[i] (List.getElem?_eq_getElem hi2)
  refine ⟨out[i], wi, wj, ?_, ?_, hst, ?_⟩
  · rw [← List.map_take, BootStrap_ok_eq a htake]
  · simp [List.getElem?_eq_getElem hi2]
  · simp [List.getElem?_eq_getElem hi2, Staged.id]

/-- C2: when the requests before `session` all succeed and `session` fails,
its first failing stage returning the error `e`, `BootStrap` returns exactly
`e` together with a nil sequence of identifiers, and it returns at once: the
failing call is the last call made and the world is the one that call left. -/
theorem BootStrap_failure (a : Application σ Ctx Req PCfg SCfg DCfg SU PU Err) (w w1 w2 : σ)
    (sessions rest : List Req) (out : List (Staged Req PCfg DCfg SU)) (session : Req)
    (cs : List (Call Ctx Req PCfg SCfg DCfg)) (e : Err)
    (hs : sessions = out.map Staged.session ++ session :: rest)
    (hok : AllOk a w out w1) (hfail : FailsAt a w1 session cs e w2) :
    (BootStrap a sessions w).err = some e ∧ (BootStrap a sessions w).ids = none ∧
    (BootStrap a sessions w).world = w2 ∧
    (BootStrap a sessions w).calls.getLast? = cs.getLast? ∧ cs ≠ [] := by
  subst hs
  rw [BootStrap_fail_eq a hok hfail]
  have hne : cs ≠ [] := by cases hfail <;> simp
  refine ⟨rfl, rfl, rfl, ?_, hne⟩
  simp only []
  rw [List.getLast?_append_of_ne_nil _ hne]

/-- C3, as amended: when the `k` requests before `session` all succeed and
`session` fails, the calls made are the five calls of each of the `k` requests,
in input order, followed by the calls of the failing request up to its failing
stage, and nothing else: nothing for the requests after it and nothing that
undoes a started session.  Among them the calls of `RunSession` are the `k`
successful ones in input order, followed by one more, the failing one, exactly
when the failing stage is `RunSession` itself. -/
theorem BootStrap_calls_on_failure (a : Application σ Ctx Req PCfg SCfg DCfg SU PU Err)
    (w w1 w2 : σ) (sessions rest : List Req) (out : List (Staged Req PCfg DCfg SU))
    (session : Req) (cs : List (Call Ctx Req PCfg SCfg DCfg)) (e : Err)
    (hs : sessions = out.map Staged.session ++ session :: rest)
    (hok : AllOk a w out w1) (hfail : FailsAt a w1 session cs e w2) :
    (BootStrap a sessions w).calls = out.flatMap (Staged.calls a) ++ cs ∧
    (BootStrap a sessions w).calls.filter Call.isRunSession =
      out.map (fun o => Call.RunSession o.deployCfg) ++ cs.filter Call.isRunSession ∧
    (cs.filter Call.isRunSession).length =
      (if cs.getLast?.map Call.isRunSession = some true then 1 else 0) ∧
    ((BootStrap a sessions w).calls.filter Call.isRunSession).length =
      out.length + (if cs.getLast?.map Call.isRunSession = some true then 1 else 0) := by
  subst hs
  rw [BootStrap_fail_eq a hok hfail]
  have hfilter : (out.flatMap (Staged.calls a)).filter Call.isRunSession =
      out.map (fun o => Call.RunSession o.deployCfg) := by
    clear hok
    induction out with
    | nil => rfl
    | cons o out ih =>
      rw [List.flatMap_cons, List.filter_append, ih]
      simp [Staged.calls, Call.isRunSession, List.filter]
  have hcs : (cs.filter Call.isRunSession).length =
      (if cs.getLast?.map Call.isRunSession = some true then 1 else 0) := by
    cases hfail <;> simp [Call.isRunSession, List.filter]
  refine ⟨rfl, ?_, hcs, ?_⟩
  · simp only [List.filter_append, hfilter]
  · simp only [List.filter_append, hfilter, List.length_append, List.length_map, hcs]

/-- C4: on the empty batch `BootStrap` returns the empty, non-nil sequence of
identifiers and no error, makes no call at all and leaves the world as it was. -/
theorem BootStrap_empty (a : Application σ Ctx Req PCfg SCfg DCfg SU PU Err) (w : σ) :
    (BootStrap a [] w).ids = some [] ∧ (BootStrap a [] w).err = none ∧
    (BootStrap a [] w).calls = [] ∧ (BootStrap a [] w).world = w :=
  ⟨rfl, rfl, rfl, rfl⟩

/-- C5, as amended: given three requests where the first succeeds at every
stage and the second fails in `BuildDeployCfg` with the error `e`, `BootStrap`
returns a nil sequence of identifiers paired with `e`; the calls made are the
five calls of the first request, which include its `RunSession`, followed by
the three calls of the second request up to `BuildDeployCfg`, and no call is
made for the third request. -/
theorem BootStrap_three_second_fails_deploy
    (a : Application σ Ctx Req PCfg SCfg DCfg SU PU Err) (w w1 w2 w3 : σ)
    (o1 : Staged Req PCfg DCfg SU) (r2 r3 : Req) (p2 : PCfg) (e : Err)
    (h1 : StagesOk a w o1 w1)
    (hp : a.Subsystems.BuildPipelineCfg r2 w1 = (Except.ok p2, w2))
    (hd : a.Subsystems.BuildDeployCfg p2 (a.SessionConfig r2) w2 = (Except.error e, w3)) :
    BootStrap a [o1.session, r2, r3] w =
      { ids := none, err := some e, world := w3
        calls := [Call.BuildPipelineCfg o1.session, Call.SessionConfig o1.session,
          Call.BuildDeployCfg o1.pConfig (a.SessionConfig o1.session), Call.RunSession o1.deployCfg,
          Call.Info a.ctx "heuristic session started" a.SUUIDKey (a.SUUIDString o1.sUUID),
          Call.BuildPipelineCfg r2, Call.SessionConfig r2,
          Call.BuildDeployCfg p2 (a.SessionConfig r2)] } := by
  have h := BootStrap_fail_eq a (AllOk.cons h1 (AllOk.nil w1)) (FailsAt.deploy hp hd) [r3]
  simpa [Staged.calls] using h

/-- C6, as amended: the error that `BootStrap` returns is the error of the
failing stage itself, unchanged: when the same stage error `e` is the first
failure of two batches, at whatever positions, both runs return the same
error `e`. -/
theorem BootStrap_error_unwrapped (a : Application σ Ctx Req PCfg SCfg DCfg SU PU Err)
    (w w1 w2 v v1 v2 : σ) (out out2 : List (Staged Req PCfg DCfg SU)) (session session2 : Req)
    (cs cs2 : List (Call Ctx Req PCfg SCfg DCfg)) (e : Err) (rest rest2 : List Req)
    (hok : AllOk a w out w1) (hfail : FailsAt a w1 session cs e w2)
    (hok2 : AllOk a v out2 v1) (hfail2 : FailsAt a v1 session2 cs2 e v2) :
    (BootStrap a (out.map Staged.session ++ session :: rest) w).err = some e ∧
    (BootStrap a (out2.map Staged.session ++ session2 :: rest2) v).err =
      (BootStrap a (out.map Staged.session ++ session :: rest) w).err := by
  rw [BootStrap_fail_eq a hok hfail, BootStrap_fail_eq a hok2 hfail2]
  exact ⟨rfl, rfl⟩

/-- C10: `BootStrap` is compositional over the concatenation of batches.  If
the run over `xs` from world `w` succeeds with identifiers `A`, calls `t1` and
world `w1`, and the run over `ys` from `w1` succeeds with identifiers `B`,
calls `t2` and world `w2`, then the run over `xs ++ ys` from `w` succeeds with
`A ++ B`, calls `t1 ++ t2` and world `w2`; and if the run over `xs` fails, the
run over `xs ++ ys` is the same run: same error, same calls, same world. -/
theorem BootStrap_append (a : Application σ Ctx Req PCfg SCfg DCfg SU PU Err)
    (xs ys : List Req) (w : σ) :
    (∀ (A B : List (HeuristicID SU PU)) (w1 w2 : σ) (t1 t2 : List (Call Ctx Req PCfg SCfg DCfg)),
      BootStrap a xs w = { ids := some A, err := none, world := w1, calls := t1 } →
      BootStrap a ys w1 = { ids := some B, err := none, world := w2, calls := t2 } →
      BootStrap a (xs ++ ys) w =
        { ids := some (A ++ B), err := none, world := w2, calls := t1 ++ t2 }) ∧
    (∀ e : Err, (BootStrap a xs w).err = some e →
      BootStrap a (xs ++ ys) w = BootStrap a xs w) := by
  rcases batch_total a xs w with ⟨out, u1, hout, hall⟩ | ⟨out, u1, s2, cs, e, u2, rest, hsplit, hall, hf⟩
  · subst hout
    constructor
    · intro A B w1 w2 t1 t2 hx hy
      rw [BootStrap_ok_eq a hall] at hx
      rw [BootStrap_allOk_append a hall]
      injection hx with hA _ hw ht
      subst hw
      rw [hy, ← ht]
      injection hA with hA
      simp [BootRun.after, hA]
    · intro e he
      rw [BootStrap_ok_eq a hall] at he
      simp at he
  · subst hsplit
    constructor
    · intro A B w1 w2 t1 t2 hx hy
      rw [BootStrap_fail_eq a hall hf] at hx
      injection hx with hA
      simp at hA
    · intro e2 _
      rw [List.append_assoc, List.cons_append, BootStrap_fail_eq a hall hf,
        BootStrap_fail_eq a hall hf]

/-- The theorem of C1 at the batch `[1, 5]` of the concrete application: both
requests succeed and the run returns no error. -/
theorem BootStrap_success_witness :
    AllOk exampleApp exampleWorld [staged1, staged5] (exampleWorldAfter 2) ∧
    (BootStrap exampleApp [1, 5] exampleWorld).err = none ∧
    (BootStrap exampleApp [1, 5] exampleWorld).ids =
      some [{ SUUID := 100, PUUID := 1012 }, { SUUID := 101, PUUID := 1056 }] :=
  ⟨example_allOk_1_5,
    (BootStrap_success exampleApp exampleWorld (exampleWorldAfter 2) [1, 5] [staged1, staged5]
      rfl example_allOk_1_5).1, rfl⟩

/-- The theorem of C2 at the batch `[1, 2, 5]` of the concrete application:
request `1` succeeds, request `2` fails in `BuildDeployCfg` with error `2`,
and the run returns that error and no identifiers. -/
theorem BootStrap_failure_witness :
    AllOk exampleApp exampleWorld [staged1] (exampleWorldAfter 1) ∧
    FailsAt exampleApp (exampleWorldAfter 1) 2
      [Call.BuildPipelineCfg 2, Call.SessionConfig 2, Call.BuildDeployCfg 20 3] 2
      (exampleWorldAfter 1) ∧
    (BootStrap exampleApp [1, 2, 5] exampleWorld).err = some 2 ∧
    (BootStrap exampleApp [1, 2, 5] exampleWorld).ids = none :=
  have h := BootStrap_failure exampleApp exampleWorld (exampleWorldAfter 1) (exampleWorldAfter 1)
    [1, 2, 5] [5] [staged1] 2 _ 2 rfl example_allOk_1 (example_fail_2 _)
  ⟨example_allOk_1, example_fail_2 _, h.1, h.2.1⟩

/-- The claim C3 fails at the batch `[1, 3, 5]` of the concrete application:
request `1` succeeds (`k = 1`) and request `3` fails, in `RunSession`; by then
`RunSession` has been called twice, not once. -/
theorem BootStrap_runSession_count_counterexample :
    AllOk exampleApp exampleWorld [staged1] (exampleWorldAfter 1) ∧
    FailsAt exampleApp (exampleWorldAfter 1) 3
      [Call.BuildPipelineCfg 3, Call.SessionConfig 3, Call.BuildDeployCfg 30 4,
        Call.RunSession 34] 3 (exampleWorldAfter 1) ∧
    (BootStrap exampleApp [1, 3, 5] exampleWorld).err = some 3 ∧
    (BootStrap exampleApp [1, 3, 5] exampleWorld).calls.filter Call.isRunSession =
      [Call.RunSession 12, Call.RunSession 34] ∧
    ((BootStrap exampleApp [1, 3, 5] exampleWorld).calls.filter Call.isRunSession).length ≠
      [staged1].length :=
  ⟨example_allOk_1, example_fail_3 _, rfl, rfl, by decide⟩

/-- The theorem of C3, as amended, at the batch `[1, 3, 5]` of the concrete
application: two calls of `RunSession`, the second one failing. -/
theorem BootStrap_calls_on_failure_witness :
    AllOk exampleApp exampleWorld [staged1] (exampleWorldAfter 1) ∧
    FailsAt exampleApp (exampleWorldAfter 1) 3
      [Call.BuildPipelineCfg 3, Call.SessionConfig 3, Call.BuildDeployCfg 30 4,
        Call.RunSession 34] 3 (exampleWorldAfter 1) ∧
    (BootStrap exampleApp [1, 3, 5] exampleWorld).calls =
      [staged1].flatMap (Staged.calls exampleApp) ++
        [Call.BuildPipelineCfg 3, Call.SessionConfig 3, Call.BuildDeployCfg 30 4,
          Call.RunSession 34] :=
  ⟨example_allOk_1, example_fail_3 _,
    (BootStrap_calls_on_failure exampleApp exampleWorld (exampleWorldAfter 1)
      (exampleWorldAfter 1) [1, 3, 5] [5] [staged1] 3 _ 3 rfl example_allOk_1
      (example_fail_3 _)).1⟩

/-- The claim C5 fails at the batch `[1, 2, 5]` of the concrete application:
request `1` succeeds at every stage and request `2` fails in `BuildDeployCfg`,
yet the run returns a nil sequence, not the one identifier of request `1`. -/
theorem BootStrap_partial_ids_counterexample :
    StagesOk exampleApp exampleWorld staged1 (exampleWorldAfter 1) ∧
    exampleApp.Subsystems.BuildPipelineCfg 2 (exampleWorldAfter 1) =
      (Except.ok 20, exampleWorldAfter 1) ∧
    exampleApp.Subsystems.BuildDeployCfg 20 (exampleApp.SessionConfig 2) (exampleWorldAfter 1) =
      (Except.error 2, exampleWorldAfter 1) ∧
    (BootStrap exampleApp [1, 2, 5] exampleWorld).err = some 2 ∧
    (BootStrap exampleApp [1, 2, 5] exampleWorld).ids = none ∧
    (BootStrap exampleApp [1, 2, 5] exampleWorld).ids ≠ some [Staged.id exampleApp staged1] :=
  ⟨⟨exampleWorld, exampleWorld, rfl, rfl, rfl⟩, rfl, rfl, rfl, rfl, by
    intro h
    cases h⟩

/-- The theorem of C5, as amended, at the batch `[1, 2, 5]` of the concrete
application. -/
theorem BootStrap_three_second_fails_deploy_witness :
    StagesOk exampleApp exampleWorld staged1 (exampleWorldAfter 1) ∧
    BootStrap exampleApp [1, 2, 5] exampleWorld =
      { ids := none, err := some 2, world := exampleWorldAfter 1
        calls := [Call.BuildPipelineCfg 1, Call.SessionConfig 1, Call.BuildDeployCfg 10 2,
          Call.RunSession 12, Call.Info 7 "heuristic session started" "suuid" "session-100",
          Call.BuildPipelineCfg 2, Call.SessionConfig 2, Call.BuildDeployCfg 20 3] } :=
  ⟨⟨exampleWorld, exampleWorld, rfl, rfl, rfl⟩,
    BootStrap_three_second_fails_deploy exampleApp exampleWorld (exampleWorldAfter 1)
      (exampleWorldAfter 1) (exampleWorldAfter 1) staged1 2 5 20 2
      ⟨exampleWorld, exampleWorld, rfl, rfl, rfl⟩ rfl rfl⟩

/-- The claim C6 fails for the concrete application: the batches `[0]` and
`[1, 0]` fail at positions `0` and `1` with the same stage error, and both
runs return that same error `1`, so no function of the returned error gives
the position of the failing request. -/
theorem BootStrap_error_index_counterexample :
    (BootStrap exampleApp [0] exampleWorld).err = some 1 ∧
    (BootStrap exampleApp [1, 0] exampleWorld).err = some 1 ∧
    ¬ ErrorIdentifiesIndex exampleApp exampleWorld := by
  refine ⟨rfl, rfl, ?_⟩
  rintro ⟨indexOf, h⟩
  have h0 := h [] exampleWorld exampleWorld 0 _ 1 1 [] (AllOk.nil _) (example_fail_0 _) rfl
  have h1 := h [staged1] (exampleWorldAfter 1) (exampleWorldAfter 1) 0 _ 1 1 [] example_allOk_1
    (example_fail_0 _) rfl
  simp at h0 h1
  omega

/-- The theorem of C6, as amended, at the batches `[0]` and `[1, 0]` of the
concrete application. -/
theorem BootStrap_error_unwrapped_witness :
    (BootStrap exampleApp [0] exampleWorld).err = some 1 ∧
    (BootStrap exampleApp [1, 0] exampleWorld).err = (BootStrap exampleApp [0] exampleWorld).err :=
  BootStrap_error_unwrapped exampleApp exampleWorld exampleWorld exampleWorld exampleWorld
    (exampleWorldAfter 1) (exampleWorldAfter 1) [] [staged1] 0 0 _ _ 1 [] []
    (AllOk.nil _) (example_fail_0 _) example_allOk_1 (example_fail_0 _)

/-- The theorem of C10 at the batches `[1]` and `[5]`, and at the batches
`[1, 0]` and `[5]`, of the concrete application. -/
theorem BootStrap_append_witness :
    BootStrap exampleApp ([1] ++ [5]) exampleWorld =
      { ids := some ([{ SUUID := 100, PUUID := 1012 }] ++ [{ SUUID := 101, PUUID := 1056 }])
        err := none, world := exampleWorldAfter 2
        calls := Staged.calls exampleApp staged1 ++ Staged.calls exampleApp staged5 } ∧
    BootStrap exampleApp ([1, 0] ++ [5]) exampleWorld = BootStrap exampleApp [1, 0] exampleWorld :=
  ⟨(BootStrap_append exampleApp [1] [5] exampleWorld).1 _ _ (exampleWorldAfter 1) _ _ _ rfl rfl,
    (BootStrap_append exampleApp [1, 0] [5] exampleWorld).2 1 rfl⟩

end BootStrapClaims

/-! ## The claims about `Start` -/

section StartClaims

variable {σ Ctx Req PCfg SCfg DCfg SU PU Err : Type}

/-- C7: `Start` makes exactly four calls, in this order: the start of the
metrics emitter, the start of the event-loop routines of the Subsystem Manager
with the application's context, the start of the API server, and the heartbeat
`RecordUp`; each occurs once, the heartbeat last, and the world left is the
one these four effects produce in that order. -/
theorem Start_order (a : Application σ Ctx Req PCfg SCfg DCfg SU PU Err) (w : σ) :
    (Start a w).calls =
      [Call.metricsStart, Call.StartEventRoutines a.ctx, Call.serverStart, Call.RecordUp a.ctx] ∧
    (Start a w).world =
      (a.metricsWithContext a.ctx).RecordUp
        (a.server.Start (a.Subsystems.StartEventRoutines a.ctx (a.metrics.Start w))) ∧
    (Start a w).calls.length = 4 :=
  ⟨rfl, rfl, rfl⟩

/-- The claim C8 fails for the concrete application started in a world where
the port of the metrics emitter is taken: the emitter does not come up, yet
`Start` returns no error and records the heartbeat. -/
theorem Start_abort_counterexample :
    (exampleApp.metrics.Start exampleWorld).metricsUp = false ∧
    (Start exampleApp exampleWorld).err = none ∧
    (Start exampleApp exampleWorld).calls.filter Call.isRecordUp = [Call.RecordUp 7] ∧
    (Start exampleApp exampleWorld).world.heartbeats = 1 ∧
    ¬ StartAbortsOnFailure exampleApp (fun w => w.metricsUp = false) exampleWorld := by
  refine ⟨rfl, rfl, rfl, rfl, ?_⟩
  intro h
  exact (h (Or.inl rfl)).1 rfl

/-- C8, as amended: `Start` has no failure path.  Whatever the three start-up
steps do to the world, `Start` runs all three in order (the metrics emitter,
the event-loop routines, the API server), records the heartbeat exactly once
after them and returns no error: the run is exactly these four calls, the
world is the one the four effects produce in that order, and the error is nil.
A step that leaves a failed world changes none of this, so the abort of the
original claim holds only of the worlds in which no step has failed. -/
theorem Start_never_fails (a : Application σ Ctx Req PCfg SCfg DCfg SU PU Err) (w : σ) :
    Start a w =
      { err := none
        world := (a.metricsWithContext a.ctx).RecordUp
          (a.server.Start (a.Subsystems.StartEventRoutines a.ctx (a.metrics.Start w)))
        calls := [Call.metricsStart, Call.StartEventRoutines a.ctx, Call.serverStart,
          Call.RecordUp a.ctx] } ∧
    (Start a w).calls.filter Call.isRecordUp = [Call.RecordUp a.ctx] ∧
    (Start a w).calls.getLast? = some (Call.RecordUp a.ctx) ∧
    ∀ failed : σ → Prop,
      (StartAbortsOnFailure a failed w ↔
        ¬ (failed (a.metrics.Start w) ∨
          failed (a.Subsystems.StartEventRoutines a.ctx (a.metrics.Start w)) ∨
          failed (a.server.Start
            (a.Subsystems.StartEventRoutines a.ctx (a.metrics.Start w))))) := by
  refine ⟨rfl, rfl, rfl, ?_⟩
  intro failed
  constructor
  · intro h hf
    exact (h hf).1 rfl
  · intro hn hf
    exact absurd hf hn

end StartClaims

/-! ## The claim about `ListenForShutdown` -/

section ListenClaims

variable {σ Ctx Req PCfg SCfg DCfg SU PU Err : Type}

/-- A delivery changes at most the buffer of the channel. -/
theorem ListenForShutdown.deliver_pc (sig : Signal) (s : ListenState Ctx Req PCfg SCfg DCfg) :
    (ListenForShutdown.deliver sig s).pc = s.pc ∧
    (ListenForShutdown.deliver sig s).calls = s.calls ∧
    (ListenForShutdown.deliver sig s).notify = s.notify := by
  unfold ListenForShutdown.deliver
  split <;> exact ⟨rfl, rfl, rfl⟩

/-- The invariant is kept by every action. -/
theorem ListenInv.exec (a : Application σ Ctx Req PCfg SCfg DCfg SU PU Err)
    (D D2 : Signal → Prop) (s : ListenState Ctx Req PCfg SCfg DCfg) (act : Action)
    (h : ListenInv a D s) (hD : ∀ x, D x → D2 x) (hact : ∀ sig, act = Action.deliver sig → D2 sig) :
    ListenInv a D2 (ListenForShutdown.exec a s act) := by
  obtain ⟨hn, hs, hpc⟩ := h
  cases act with
  | deliver sig =>
    have hsig := hact sig rfl
    obtain ⟨e1, e2, e3⟩ := ListenForShutdown.deliver_pc sig s
    refine ⟨?_, ?_, ?_⟩
    · simp only [ListenForShutdown.exec, e3]; exact hn
    · intro x hx
      simp only [ListenForShutdown.exec, ListenForShutdown.deliver] at hx
      split at hx
      · rename_i hc
        simp only [List.mem_append, List.mem_singleton] at hx
        rcases hx with hx | hx
        · exact ⟨(hs x hx).1, hD x (hs x hx).2⟩
        · subst hx; exact ⟨hn x hc.1, hsig⟩
      · exact ⟨(hs x hx).1, hD x (hs x hx).2⟩
    · simp only [ListenForShutdown.exec, e1, e2]
      cases hp : s.pc with
      | callEnd => simpa [hp] using hpc
      | recv => simpa [hp] using hpc
      | logging done =>
        simp only [hp] at hpc ⊢
        exact ⟨hpc.1, hpc.2.1, hD _ hpc.2.2⟩
      | callStop =>
        simp only [hp] at hpc ⊢
        obtain ⟨d, h1, h2, h3⟩ := hpc
        exact ⟨d, h1, hD _ h2, h3⟩
      | returned =>
        simp only [hp] at hpc ⊢
        obtain ⟨d, h1, h2, h3⟩ := hpc
        exact ⟨d, h1, hD _ h2, h3⟩
  | step =>
    simp only [ListenForShutdown.exec, ListenForShutdown.step]
    cases hp : s.pc with
    | callEnd =>
      simp only [hp] at hpc
      refine ⟨?_, ?_, ?_⟩
      · intro x hx
        simp only [End, List.mem_cons, List.mem_singleton, List.not_mem_nil, or_false] at hx
        exact hx
      · intro x hx; simp [End] at hx
      · simpa [End] using hpc
    | recv =>
      simp only [hp] at hpc
      cases hb : s.sigs with
      | nil =>
        refine ⟨hn, ?_, ?_⟩
        · intro x hx; rw [hb] at hx; simp at hx
        · simpa [hp] using hpc
      | cons done rest =>
        have hd := hs done (by rw [hb]; exact List.mem_cons_self _ _)
        refine ⟨hn, ?_, ?_⟩
        · intro x hx
          have hx2 : x ∈ s.sigs := by rw [hb]; exact List.mem_cons_of_mem _ hx
          exact ⟨(hs x hx2).1, hD x (hs x hx2).2⟩
        · exact ⟨hpc, hd.1, hD _ hd.2⟩
    | logging done =>
      simp only [hp] at hpc
      refine ⟨hn, fun x hx => ⟨(hs x hx).1, hD x (hs x hx).2⟩, ?_⟩
      exact ⟨done, hpc.2.1, hD _ hpc.2.2, by simp [hpc.1, shutdownRecord]⟩
    | callStop =>
      simp only [hp] at hpc
      obtain ⟨d, h1, h2, h3⟩ := hpc
      refine ⟨hn, fun x hx => ⟨(hs x hx).1, hD x (hs x hx).2⟩, ?_⟩
      exact ⟨d, h1, hD _ h2, by simp [h3]⟩
    | returned =>
      simp only [hp] at hpc
      obtain ⟨d, h1, h2, h3⟩ := hpc
      refine ⟨hn, fun x hx => ⟨(hs x hx).1, hD x (hs x hx).2⟩, ?_⟩
      simp only [hp]
      exact ⟨d, h1, hD _ h2, h3⟩

/-- The invariant holds after every schedule. -/
theorem ListenInv.run (a : Application σ Ctx Req PCfg SCfg DCfg SU PU Err) (acts : List Action) :
    ListenInv a (fun x => Action.deliver x ∈ acts)
      (ListenForShutdown a acts) := by
  induction acts using List.reverseRecOn with
  | nil =>
    refine ⟨?_, ?_, ?_⟩
    · intro x hx; simp [ListenForShutdown, ListenForShutdown.init] at hx
    · intro x hx; simp [ListenForShutdown, ListenForShutdown.init] at hx
    · simp [ListenForShutdown, ListenForShutdown.init]
  | append_singleton acts act ih =>
    have hrun : (ListenForShutdown a (acts ++ [act]) : ListenState Ctx Req PCfg SCfg DCfg) =
        ListenForShutdown.exec a (ListenForShutdown a acts) act := by
      simp [ListenForShutdown, List.foldl_append]
    rw [hrun]
    refine ListenInv.exec a _ _ _ act ih ?_ ?_
    · intro x hx; exact List.mem_append_left _ hx
    · intro sig hsig; subst hsig; simp

/-- Once `ListenForShutdown` has returned, nothing changes its calls. -/
theorem ListenForShutdown.from_returned (a : Application σ Ctx Req PCfg SCfg DCfg SU PU Err)
    (post : List Action) :
    ∀ s : ListenState Ctx Req PCfg SCfg DCfg, s.pc = PC.returned →
      (post.foldl (ListenForShutdown.exec a) s).pc = PC.returned ∧
      (post.foldl (ListenForShutdown.exec a) s).calls = s.calls := by
  induction post with
  | nil => intro s hp; exact ⟨hp, rfl⟩
  | cons act post ih =>
    intro s hp
    rw [List.foldl_cons]
    cases act with
    | deliver sig =>
      obtain ⟨e1, e2, _⟩ := ListenForShutdown.deliver_pc sig s
      have h := ih (ListenForShutdown.deliver sig s) (by rw [e1, hp])
      rw [e2] at h
      exact h
    | step =>
      have hst : ListenForShutdown.step a s = s := by simp [ListenForShutdown.step, hp]
      simp only [ListenForShutdown.exec, hst]
      exact ih s hp

/-- From the call of `stop()`, one step of the goroutine makes the call and
returns. -/
theorem ListenForShutdown.from_callStop (a : Application σ Ctx Req PCfg SCfg DCfg SU PU Err)
    (post : List Action) :
    ∀ s : ListenState Ctx Req PCfg SCfg DCfg, s.pc = PC.callStop → 1 ≤ post.count Action.step →
      (post.foldl (ListenForShutdown.exec a) s).pc = PC.returned ∧
      (post.foldl (ListenForShutdown.exec a) s).calls = s.calls ++ [Call.stop] := by
  induction post with
  | nil => intro s _ hc; simp at hc
  | cons act post ih =>
    intro s hp hc
    rw [List.foldl_cons]
    cases act with
    | deliver sig =>
      obtain ⟨e1, e2, _⟩ := ListenForShutdown.deliver_pc sig s
      have h := ih (ListenForShutdown.deliver sig s) (by rw [e1, hp]) (by simpa using hc)
      rw [e2] at h
      exact h
    | step =>
      have h := ListenForShutdown.from_returned a post (ListenForShutdown.step a s)
        (by simp [ListenForShutdown.step, hp])
      simp only [ListenForShutdown.exec]
      refine ⟨h.1, ?_⟩
      rw [h.2]
      simp [ListenForShutdown.step, hp]

/-- From the logging of the received signal, two steps of the goroutine log
it, call `stop()` and return. -/
theorem ListenForShutdown.from_logging (a : Application σ Ctx Req PCfg SCfg DCfg SU PU Err)
    (done : Signal) (post : List Action) :
    ∀ s : ListenState Ctx Req PCfg SCfg DCfg, s.pc = PC.logging done →
      2 ≤ post.count Action.step →
      (post.foldl (ListenForShutdown.exec a) s).pc = PC.returned ∧
      (post.foldl (ListenForShutdown.exec a) s).calls =
        s.calls ++ [shutdownRecord a done, Call.stop] := by
  induction post with
  | nil => intro s _ hc; simp at hc
  | cons act post ih =>
    intro s hp hc
    rw [List.foldl_cons]
    cases act with
    | deliver sig =>
      obtain ⟨e1, e2, _⟩ := ListenForShutdown.deliver_pc sig s
      have h := ih (ListenForShutdown.deliver sig s) (by rw [e1, hp]) (by simpa using hc)
      rw [e2] at h
      exact h
    | step =>
      have h := ListenForShutdown.from_callStop a post (ListenForShutdown.step a s)
        (by simp [ListenForShutdown.step, hp]) (by simpa using hc)
      simp only [ListenForShutdown.exec]
      refine ⟨h.1, ?_⟩
      rw [h.2]
      simp [ListenForShutdown.step, hp, shutdownRecord]

/-- From the receive with the signal `done` in the channel, three steps of the
goroutine receive it, log it, call `stop()` and return. -/
theorem ListenForShutdown.from_recv (a : Application σ Ctx Req PCfg SCfg DCfg SU PU Err)
    (done : Signal) (post : List Action) :
    ∀ s : ListenState Ctx Req PCfg SCfg DCfg, s.pc = PC.recv → s.sigs = [done] →
      3 ≤ post.count Action.step →
      (post.foldl (ListenForShutdown.exec a) s).pc = PC.returned ∧
      (post.foldl (ListenForShutdown.exec a) s).calls =
        s.calls ++ [shutdownRecord a done, Call.stop] := by
  induction post with
  | nil => intro s _ _ hc; simp at hc
  | cons act post ih =>
    intro s hp hb hc
    rw [List.foldl_cons]
    cases act with
    | deliver sig =>
      have hd : ListenForShutdown.deliver sig s = s := by
        simp [ListenForShutdown.deliver, hb]
      simp only [ListenForShutdown.exec, hd]
      exact ih s hp hb (by simpa using hc)
    | step =>
      have h := ListenForShutdown.from_logging a done post (ListenForShutdown.step a s)
        (by simp [ListenForShutdown.step, hp, hb]) (by simpa using hc)
      simp only [ListenForShutdown.exec]
      refine ⟨h.1, ?_⟩
      rw [h.2]
      simp [ListenForShutdown.step, hp, hb]

/-- While no termination signal is delivered the goroutine stays blocked on
the receive. -/
theorem ListenForShutdown.blocked (a : Application σ Ctx Req PCfg SCfg DCfg SU PU Err)
    (mid : List Action) (hmid : ∀ sig, Action.deliver sig ∈ mid → ¬ isTermination sig) :
    ∀ s : ListenState Ctx Req PCfg SCfg DCfg, s.pc = PC.recv → s.sigs = [] →
      s.notify = [SIGINT, SIGTERM] → mid.foldl (ListenForShutdown.exec a) s = s := by
  induction mid with
  | nil => intro s _ _ _; rfl
  | cons act mid ih =>
    intro s hp hb hn
    rw [List.foldl_cons]
    have hmid2 : ∀ sig, Action.deliver sig ∈ mid → ¬ isTermination sig :=
      fun sig h => hmid sig (List.mem_cons_of_mem _ h)
    cases act with
    | deliver sig =>
      have hnt : ¬ isTermination sig := hmid sig (List.mem_cons_self _ _)
      have hd : ListenForShutdown.deliver sig s = s := by
        have : ¬ sig ∈ s.notify := by
          rw [hn]
          simpa [isTermination] using hnt
        simp [ListenForShutdown.deliver, this]
      simp only [ListenForShutdown.exec, hd]
      exact ih hmid2 s hp hb hn
    | step =>
      have hst : ListenForShutdown.step a s = s := by simp [ListenForShutdown.step, hp, hb]
      simp only [ListenForShutdown.exec, hst]
      exact ih hmid2 s hp hb hn

/-- C9: in every run of `ListenForShutdown`, the shutdown callback has been
invoked only if a termination signal (`SIGINT` or `SIGTERM`) was delivered
before, and then the calls made are exactly the log record naming that signal
followed by one call of the callback; the method has returned exactly when the
callback has been invoked.  And a run does get there: when, after the call of
`End`, the first termination signal delivered is `sig` and the goroutine then
takes its three steps, it has logged the name of `sig`, invoked the callback
once and returned. -/
theorem ListenForShutdown_once (a : Application σ Ctx Req PCfg SCfg DCfg SU PU Err) :
    (∀ acts : List Action,
      (Call.stop ∈ (ListenForShutdown a acts).calls ↔
        (ListenForShutdown a acts).pc = PC.returned) ∧
      (Call.stop ∈ (ListenForShutdown a acts).calls →
        ∃ sig, Action.deliver sig ∈ acts ∧ isTermination sig ∧
          (ListenForShutdown a acts).calls =
            [shutdownRecord a sig, Call.stop])) ∧
    (∀ (mid post : List Action) (sig : Signal),
      (∀ x, Action.deliver x ∈ mid → ¬ isTermination x) →
      isTermination sig → 3 ≤ post.count Action.step →
      (ListenForShutdown a (Action.step :: mid ++ Action.deliver sig :: post)).pc =
        PC.returned ∧
      (ListenForShutdown a (Action.step :: mid ++ Action.deliver sig :: post)).calls =
        [shutdownRecord a sig, Call.stop]) := by
  constructor
  · intro acts
    obtain ⟨_, _, hpc⟩ := ListenInv.run a acts
    cases hp : (ListenForShutdown a acts).pc with
    | callEnd => simp only [hp] at hpc; simp [hpc]
    | recv => simp only [hp] at hpc; simp [hpc]
    | logging done => simp only [hp] at hpc; simp [hpc.1]
    | callStop =>
      simp only [hp] at hpc
      obtain ⟨d, _, _, h3⟩ := hpc
      simp [h3, shutdownRecord]
    | returned =>
      simp only [hp] at hpc
      obtain ⟨d, h1, h2, h3⟩ := hpc
      refine ⟨by simp [h3], fun _ => ⟨d, h2, h1, h3⟩⟩
  · intro mid post sig hmid hsig hpost
    have hrun : ListenForShutdown a (Action.step :: mid ++ Action.deliver sig :: post) =
        post.foldl (ListenForShutdown.exec a)
          { pc := PC.recv, notify := [SIGINT, SIGTERM], sigs := [sig], calls := [] } := by
      unfold ListenForShutdown
      rw [List.cons_append, List.foldl_cons, List.foldl_append, List.foldl_cons]
      have hstep : ListenForShutdown.exec a
          (ListenForShutdown.init : ListenState Ctx Req PCfg SCfg DCfg) Action.step =
          { pc := PC.recv, notify := [SIGINT, SIGTERM], sigs := [], calls := [] } := rfl
      rw [hstep, ListenForShutdown.blocked a mid hmid _ rfl rfl rfl]
      have hdel : ListenForShutdown.exec a
          ({ pc := PC.recv, notify := [SIGINT, SIGTERM], sigs := [], calls := [] } :
            ListenState Ctx Req PCfg SCfg DCfg) (Action.deliver sig) =
          { pc := PC.recv, notify := [SIGINT, SIGTERM], sigs := [sig], calls := [] } := by
        have hm : sig ∈ [SIGINT, SIGTERM] := by
          rcases hsig with h | h <;> simp [h]
        simp [ListenForShutdown.exec, ListenForShutdown.deliver, hm]
      rw [hdel]
    rw [hrun]
    have h := ListenForShutdown.from_recv a sig post
      { pc := PC.recv, notify := [SIGINT, SIGTERM], sigs := [sig], calls := [] } rfl rfl hpost
    simpa using h

/-- The theorem of C9 at a schedule of the concrete application: `End` is
called, a signal that is not registered (`1`) is delivered and not relayed,
then `SIGTERM` and `SIGINT` are delivered and the goroutine takes three steps;
it logs `SIGTERM`, calls the callback once and returns. -/
theorem ListenForShutdown_once_witness :
    isTermination SIGTERM ∧
    (ListenForShutdown exampleApp
      (Action.step :: [Action.deliver 1, Action.step] ++
        Action.deliver SIGTERM ::
          [Action.deliver SIGINT, Action.step, Action.step, Action.step])).calls =
      [Call.Info 7 "Received shutdown OS signal" "signal" "terminated", Call.stop] :=
  ⟨Or.inr rfl,
    ((ListenForShutdown_once exampleApp).2 [Action.deliver 1, Action.step]
      [Action.deliver SIGINT, Action.step, Action.step, Action.step]
      SIGTERM (by simp [isTermination, SIGINT, SIGTERM]) (Or.inr rfl) (by decide)).2⟩

end ListenClaims

end App
